import Mathlib

/-!
Verification of the selection-bias meme pipeline.

The pipeline's data model and the two algorithmic components relevant to
the claims are embedded shallowly:

* `NpImage` models a 2D numpy array of rationals (grayscale values).
* `create_masked_stipple` embeds `src/step5_create_masked.py`: shape
  validation, the strict `mask < threshold` removal rule, and the
  removed/preserved counts that the source reports.
* `font_size` embeds the `int(min_dimension * font_size_ratio)` computation
  of `src/step4_create_block_letter.py`; `create_block_letter_s` embeds the
  rest of that function with the external PIL glyph rasterizer abstracted
  as a `render` argument producing uint8 pixels.
* `create_masked_stipple_heap` re-embeds step 5 over an explicit heap of
  buffers so that the source's copy-then-mutate behaviour (and hence
  non-mutation of the inputs) is a theorem rather than a modelling choice.
* `repairImage` / `create_statistics_meme` embed the shape-repair loop of
  `src/create_meme.py`, with the external LANCZOS resampler abstracted.
* `create_stipple` models the Stipple Sampler from the spec (its source,
  step2_create_stipple.py, is imported by generate_meme.py but not present).
-/

/-- A 2D numpy array of rationals. `data` is total; only indices
`i < height`, `j < width` correspond to pixels of the array. -/
@[ext]
structure NpImage where
  height : ℕ
  width : ℕ
  data : ℕ → ℕ → ℚ

/-- The numpy `.shape` attribute, as a (height, width) pair. -/
def NpImage.shape (img : NpImage) : ℕ × ℕ := (img.height, img.width)

/-- The set of in-bounds pixel indices of a (height, width) array. -/
def pixelIndices (height width : ℕ) : Finset (ℕ × ℕ) :=
  Finset.range height ×ˢ Finset.range width

/-- Result of `create_masked_stipple`: the returned image together with the
removed/preserved pixel counts the source computes for its report
(`num_removed = np.sum(mask_area)`, `num_preserved = np.sum(~mask_area)`). -/
structure MaskedResult where
  image : NpImage
  numRemoved : ℕ
  numPreserved : ℕ

/-- Embedding of `create_masked_stipple` (src/step5_create_masked.py).
Shape mismatch raises `ValueError`; otherwise the output is a copy of the
stipple with every pixel where `mask_img < threshold` set to 1.0. -/
def create_masked_stipple (stipple_img mask_img : NpImage) (threshold : ℚ) :
    Except String MaskedResult :=
  if stipple_img.shape ≠ mask_img.shape then
    Except.error "Input images must have the same shape."
  else
    Except.ok
      { image :=
          { height := stipple_img.height
            width := stipple_img.width
            data := fun i j =>
              if mask_img.data i j < threshold then 1 else stipple_img.data i j }
        numRemoved :=
          ((pixelIndices mask_img.height mask_img.width).filter
            (fun p => mask_img.data p.1 p.2 < threshold)).card
        numPreserved :=
          ((pixelIndices mask_img.height mask_img.width).filter
            (fun p => ¬ mask_img.data p.1 p.2 < threshold)).card }

/-- Embedding of the Python `int()` conversion applied to a rational:
truncation toward zero. -/
def pyInt (x : ℚ) : ℤ :=
  if 0 ≤ x then ⌊x⌋ else -⌊-x⌋

/-- Embedding of the font-size computation of `create_block_letter_s`
(src/step4_create_block_letter.py lines 43-44):
`font_size = int(min(height, width) * font_size_ratio)`. -/
def font_size (height width : ℕ) (font_size_ratio : ℚ) : ℤ :=
  pyInt ((min height width : ℕ) * font_size_ratio)

/-- The spec's wording of the same computation, for comparison:
`font_size = round(min(height, width) * font_size_ratio)`. -/
def font_size_spec (height width : ℕ) (font_size_ratio : ℚ) : ℤ :=
  round ((min height width : ℕ) * font_size_ratio)

/-- Embedding of `create_block_letter_s` (src/step4_create_block_letter.py).
The external PIL glyph rasterization is abstracted as `render`, which given
the letter and the computed font size yields the 8-bit `L`-mode pixel at
each position; the source then normalizes with
`np.array(img, dtype=np.float32) / 255.0`. -/
def create_block_letter_s (height width : ℕ) (letter : Char)
    (font_size_ratio : ℚ) (render : Char → ℤ → ℕ → ℕ → Fin 256) : NpImage :=
  { height := height
    width := width
    data := fun i j =>
      ((render letter (font_size height width font_size_ratio) i j : ℕ) : ℚ) / 255 }

/-- A heap cell for the stateful embedding: one numpy buffer. -/
structure Buffer where
  height : ℕ
  width : ℕ
  data : ℕ → ℕ → ℚ

/-- The shape of a buffer. -/
def Buffer.shape (b : Buffer) : ℕ × ℕ := (b.height, b.width)

/-- A heap of numpy buffers; an array reference is an index into the list. -/
abbrev Heap : Type := List Buffer

/-- Default buffer used for out-of-heap lookups. -/
def emptyBuffer : Buffer := ⟨0, 0, fun _ _ => 0⟩

/-- Lookup of the buffer behind a reference. -/
def Heap.lookup (h : Heap) (r : ℕ) : Buffer :=
  List.getD h r emptyBuffer

/-- Stateful embedding of `create_masked_stipple`, step by step over an
explicit heap so that aliasing is visible: `masked_stipple =
stipple_img.copy()` allocates a fresh buffer at the end of the heap, and the
in-place update `masked_stipple[mask_area] = 1.0` writes only to that fresh
buffer. Returns the final heap and the reference of the returned array. -/
def create_masked_stipple_heap (heap : Heap) (stippleRef maskRef : ℕ)
    (threshold : ℚ) : Except String (Heap × ℕ) :=
  let s := heap.lookup stippleRef
  let m := heap.lookup maskRef
  if s.shape ≠ m.shape then
    Except.error "Input images must have the same shape."
  else
    let copyRef := List.length heap
    let heap1 : Heap := heap ++ [s]
    let written : Buffer :=
      ⟨s.height, s.width, fun i j =>
        if m.data i j < threshold then 1 else s.data i j⟩
    let heap2 : Heap := List.set heap1 copyRef written
    Except.ok (heap2, copyRef)

/-- The heap after a call to `create_masked_stipple_heap` (unchanged when the
call raised, since the `ValueError` is raised before any write). -/
def heapAfterMask (heap : Heap) (stippleRef maskRef : ℕ) (threshold : ℚ) :
    Heap :=
  match create_masked_stipple_heap heap stippleRef maskRef threshold with
  | Except.ok (h2, _) => h2
  | Except.error _ => heap

/-- Embedding of the per-image shape check of `create_statistics_meme`
(src/create_meme.py lines 60-68): an image whose shape differs from the
reference shape `(h, w)` is resized to it via the external LANCZOS
resampler (abstracted as `resample`) and a warning is printed (the returned
Boolean); a matching image passes through untouched with no warning. -/
def repairImage (h w : ℕ) (resample : NpImage → ℕ → ℕ → ℕ → ℕ → ℚ)
    (img : NpImage) : NpImage × Bool :=
  if img.shape ≠ (h, w) then (⟨h, w, resample img h w⟩, true) else (img, false)

/-- Embedding of the layout-preparation part of `create_statistics_meme`
(src/create_meme.py): the reference shape is taken from `original_img`, and
each of the four panels is repaired to that shape if needed. The result is
the list of (image, warning-emitted) pairs handed to the plotting library;
no path of this loop raises. -/
def create_statistics_meme (original_img stipple_img block_letter_img
    masked_stipple_img : NpImage)
    (resample : NpImage → ℕ → ℕ → ℕ → ℕ → ℚ) : List (NpImage × Bool) :=
  List.map (repairImage original_img.height original_img.width resample)
    [original_img, stipple_img, block_letter_img, masked_stipple_img]

/-- Modelled from the spec: the number of stipple sample points,
`round(percentage * height * width)` (step2_create_stipple.py is imported by
generate_meme.py but its source is not in the repository snapshot). -/
def numSamples (percentage : ℚ) (height width : ℕ) : ℕ :=
  (round (percentage * height * width)).toNat

/-- Modelled from the spec: the Stipple Sampler `create_stipple` with
`sigma = 0` (its source, step2_create_stipple.py, is not in the repository
snapshot). The random draw without replacement from the weight distribution
is abstracted as `order`, an ordering of all pixel indices from which the
first `round(percentage * height * width)` positions are taken; each chosen
position becomes a single black (0.0) pixel on a white (1.0) canvas, and the
chosen positions are returned in draw order. -/
def create_stipple (I : NpImage) (percentage : ℚ) (order : List (ℕ × ℕ)) :
    NpImage × List (ℕ × ℕ) :=
  let samples := List.take (numSamples percentage I.height I.width) order
  (⟨I.height, I.width, fun i j => if (i, j) ∈ samples then 0 else 1⟩, samples)

/-- The number of non-white pixels of an image: in-bounds positions whose
value differs from 1.0. -/
def nonWhiteCount (img : NpImage) : ℕ :=
  ((pixelIndices img.height img.width).filter
    (fun p => img.data p.1 p.2 ≠ 1)).card

example :
    (create_masked_stipple ⟨1, 1, fun _ _ => 0⟩ ⟨1, 2, fun _ _ => 0⟩
      (mkRat 1 2)).isOk = false := by decide

example :
    (create_masked_stipple ⟨1, 1, fun _ _ => 0⟩ ⟨1, 1, fun _ _ => 0⟩
      (mkRat 1 2)).map MaskedResult.numRemoved = Except.ok 1 := by rfl

example : font_size 10 10 (19/20) = 9 := by
  norm_num [font_size, pyInt]

example : font_size_spec 10 10 (19/20) = 10 := by
  norm_num [font_size_spec, round_eq]

/-- Helper: under equal shapes the compositor takes its success branch, and
the returned record is the literal one. -/
theorem create_masked_stipple_ok (stipple_img mask_img : NpImage)
    (threshold : ℚ) (hsh : stipple_img.shape = mask_img.shape) :
    create_masked_stipple stipple_img mask_img threshold =
      Except.ok
        { image :=
            { height := stipple_img.height
              width := stipple_img.width
              data := fun i j =>
                if mask_img.data i j < threshold then 1
                else stipple_img.data i j }
          numRemoved :=
            ((pixelIndices mask_img.height mask_img.width).filter
              (fun p => mask_img.data p.1 p.2 < threshold)).card
          numPreserved :=
            ((pixelIndices mask_img.height mask_img.width).filter
              (fun p => ¬ mask_img.data p.1 p.2 < threshold)).card } := by
  unfold create_masked_stipple
  rw [if_neg (by simp [hsh])]

/-- C1: on same-shaped inputs the Masked Compositor succeeds and returns an
image of the same shape in which every pixel whose mask value is strictly
below the threshold is 1.0 (white), while every pixel whose mask value is at
least the threshold — in particular one exactly equal to it — keeps the
original stipple value. -/
theorem masked_compositor_pixelwise (stipple_img mask_img : NpImage)
    (threshold : ℚ) (hsh : stipple_img.shape = mask_img.shape) :
    ∃ r, create_masked_stipple stipple_img mask_img threshold = Except.ok r ∧
      r.image.shape = stipple_img.shape ∧
      (∀ i j, mask_img.data i j < threshold → r.image.data i j = 1) ∧
      (∀ i j, threshold ≤ mask_img.data i j →
        r.image.data i j = stipple_img.data i j) ∧
      (∀ i j, mask_img.data i j = threshold →
        r.image.data i j = stipple_img.data i j) := by
  refine ⟨_, create_masked_stipple_ok stipple_img mask_img threshold hsh,
    rfl, ?_, ?_, ?_⟩
  · intro i j h
    exact if_pos h
  · intro i j h
    exact if_neg (not_lt.mpr h)
  · intro i j h
    exact if_neg (not_lt.mpr (le_of_eq h.symm))

/-- C1 witness: a concrete 2-by-2 run exercising all three cases. -/
theorem masked_compositor_pixelwise_witness :
    ∃ r, create_masked_stipple ⟨2, 2, fun _ _ => 0⟩
        ⟨2, 2, fun i j => mkRat (i + j) 4⟩ (mkRat 1 4) = Except.ok r ∧
      r.image.shape = NpImage.shape ⟨2, 2, fun _ _ => 0⟩ ∧
      (∀ i j, NpImage.data ⟨2, 2, fun i j => mkRat (i + j) 4⟩ i j < mkRat 1 4 →
        r.image.data i j = 1) ∧
      (∀ i j, mkRat 1 4 ≤ NpImage.data ⟨2, 2, fun i j => mkRat (i + j) 4⟩ i j →
        r.image.data i j = NpImage.data ⟨2, 2, fun _ _ => 0⟩ i j) ∧
      (∀ i j, NpImage.data ⟨2, 2, fun i j => mkRat (i + j) 4⟩ i j = mkRat 1 4 →
        r.image.data i j = NpImage.data ⟨2, 2, fun _ _ => 0⟩ i j) :=
  masked_compositor_pixelwise ⟨2, 2, fun _ _ => 0⟩
    ⟨2, 2, fun i j => mkRat (i + j) 4⟩ (mkRat 1 4) (by decide)

/-- C2: when the two input shapes differ the Masked Compositor raises the
shape-mismatch `ValueError` and produces no output image. -/
theorem masked_compositor_shape_mismatch (stipple_img mask_img : NpImage)
    (threshold : ℚ) (hsh : stipple_img.shape ≠ mask_img.shape) :
    create_masked_stipple stipple_img mask_img threshold =
      Except.error "Input images must have the same shape." := by
  unfold create_masked_stipple
  rw [if_pos hsh]

/-- C2 witness: stipple shape (10,10) against mask shape (10,11). -/
theorem masked_compositor_shape_mismatch_witness :
    create_masked_stipple ⟨10, 10, fun _ _ => 1⟩ ⟨10, 11, fun _ _ => 1⟩
        (mkRat 1 2) =
      Except.error "Input images must have the same shape." :=
  masked_compositor_shape_mismatch ⟨10, 10, fun _ _ => 1⟩
    ⟨10, 11, fun _ _ => 1⟩ (mkRat 1 2) (by decide)

/-- C4: the Masked Compositor is idempotent under a fixed mask and
threshold: applying it to its own output yields the same image. -/
theorem masked_compositor_idempotent (stipple_img mask_img : NpImage)
    (threshold : ℚ) (hsh : stipple_img.shape = mask_img.shape) :
    ∃ r1 r2,
      create_masked_stipple stipple_img mask_img threshold = Except.ok r1 ∧
      create_masked_stipple r1.image mask_img threshold = Except.ok r2 ∧
      r2.image = r1.image := by
  refine ⟨_, _, create_masked_stipple_ok stipple_img mask_img threshold hsh,
    create_masked_stipple_ok _ mask_img threshold hsh, ?_⟩
  refine NpImage.ext rfl rfl ?_
  funext i j
  by_cases h : mask_img.data i j < threshold
  · simp only [if_pos h]
  · simp only [if_neg h]

/-- C4 witness: a concrete run of the compositor on its own output. -/
theorem masked_compositor_idempotent_witness :
    ∃ r1 r2,
      create_masked_stipple ⟨2, 2, fun i j => mkRat (i * 2 + j) 4⟩
        ⟨2, 2, fun i j => mkRat (i + j) 2⟩ (mkRat 1 2) = Except.ok r1 ∧
      create_masked_stipple r1.image ⟨2, 2, fun i j => mkRat (i + j) 2⟩
        (mkRat 1 2) = Except.ok r2 ∧
      r2.image = r1.image :=
  masked_compositor_idempotent ⟨2, 2, fun i j => mkRat (i * 2 + j) 4⟩
    ⟨2, 2, fun i j => mkRat (i + j) 2⟩ (mkRat 1 2) (by decide)

/-- C5: the removed and preserved pixel counts reported by the Masked
Compositor always sum to height * width of the mask. -/
theorem masked_compositor_counts_total (stipple_img mask_img : NpImage)
    (threshold : ℚ) (hsh : stipple_img.shape = mask_img.shape) :
    ∃ r, create_masked_stipple stipple_img mask_img threshold = Except.ok r ∧
      r.numRemoved + r.numPreserved = mask_img.height * mask_img.width := by
  refine ⟨_, create_masked_stipple_ok stipple_img mask_img threshold hsh, ?_⟩
  have h := Finset.filter_card_add_filter_neg_card_eq_card
    (s := pixelIndices mask_img.height mask_img.width)
    (p := fun p => mask_img.data p.1 p.2 < threshold)
  simpa [pixelIndices] using h

/-- C5 witness: a concrete 2-by-3 mask and threshold. -/
theorem masked_compositor_counts_total_witness :
    ∃ r, create_masked_stipple ⟨2, 3, fun _ _ => 0⟩
        ⟨2, 3, fun i j => mkRat (i + j) 4⟩ (mkRat 1 2) = Except.ok r ∧
      r.numRemoved + r.numPreserved = 2 * 3 :=
  masked_compositor_counts_total ⟨2, 3, fun _ _ => 0⟩
    ⟨2, 3, fun i j => mkRat (i + j) 4⟩ (mkRat 1 2) (by decide)

/-- C10: with threshold 0.0 and all mask values in [0, 1], no mask value is
strictly below the threshold, so the compositor returns the stipple image
unchanged, pixel for pixel. -/
theorem masked_compositor_zero_threshold_identity
    (stipple_img mask_img : NpImage)
    (hsh : stipple_img.shape = mask_img.shape)
    (hm : ∀ i j, 0 ≤ mask_img.data i j ∧ mask_img.data i j ≤ 1) :
    ∃ r, create_masked_stipple stipple_img mask_img 0 = Except.ok r ∧
      r.image = stipple_img ∧
      ∀ i j, r.image.data i j = stipple_img.data i j := by
  refine ⟨_, create_masked_stipple_ok stipple_img mask_img 0 hsh, ?_, ?_⟩
  · refine NpImage.ext rfl rfl ?_
    funext i j
    exact if_neg (not_lt.mpr (hm i j).1)
  · intro i j
    exact if_neg (not_lt.mpr (hm i j).1)

/-- C10 witness: a concrete all-white mask, values in [0, 1]. -/
theorem masked_compositor_zero_threshold_identity_witness :
    ∃ r, create_masked_stipple ⟨2, 2, fun i j => mkRat (i * 2 + j) 4⟩
        ⟨2, 2, fun _ _ => 1⟩ 0 = Except.ok r ∧
      r.image = (⟨2, 2, fun i j => mkRat (i * 2 + j) 4⟩ : NpImage) ∧
      ∀ i j, r.image.data i j =
        NpImage.data ⟨2, 2, fun i j => mkRat (i * 2 + j) 4⟩ i j :=
  masked_compositor_zero_threshold_identity
    ⟨2, 2, fun i j => mkRat (i * 2 + j) 4⟩ ⟨2, 2, fun _ _ => 1⟩
    (by decide)
    (fun _ _ => ⟨zero_le_one, le_refl 1⟩)

/-- C3 counterexample: at height = width = 10 and font_size_ratio = 19/20
the source computes `int(10 * 0.95) = 9`, while `round` as the claim states
would give 10. -/
theorem font_size_not_round_cex :
    font_size 10 10 (19/20) = 9 ∧ font_size_spec 10 10 (19/20) = 10 ∧
      font_size 10 10 (19/20) ≠ font_size_spec 10 10 (19/20) := by
  have h1 : font_size 10 10 (19/20) = 9 := by norm_num [font_size, pyInt]
  have h2 : font_size_spec 10 10 (19/20) = 10 := by
    norm_num [font_size_spec, round_eq]
  exact ⟨h1, h2, by rw [h1, h2]; decide⟩

/-- C3 amended: for positive dimensions and font_size_ratio in (0,1], the
glyph font size is the floor (Python `int()` truncation) of
min(height, width) * font_size_ratio, not its rounding. -/
theorem font_size_truncates (height width : ℕ) (font_size_ratio : ℚ)
    (hr0 : 0 < font_size_ratio) (hr1 : font_size_ratio ≤ 1)
    (hh : 0 < height) (hw : 0 < width) :
    font_size height width font_size_ratio =
      ⌊((min height width : ℕ) : ℚ) * font_size_ratio⌋ := by
  unfold font_size pyInt
  exact if_pos (mul_nonneg (Nat.cast_nonneg _) hr0.le)

/-- C3 amended witness: the truncation result at the counterexample point. -/
theorem font_size_truncates_witness :
    font_size 10 10 (19/20) = ⌊((min 10 10 : ℕ) : ℚ) * (19/20)⌋ :=
  font_size_truncates 10 10 (19/20) (by norm_num) (by norm_num)
    (by decide) (by decide)

/-- Helper: the success equation of the heap-level compositor. -/
theorem create_masked_stipple_heap_ok (heap : Heap) (stippleRef maskRef : ℕ)
    (threshold : ℚ)
    (hsh : (heap.lookup stippleRef).shape = (heap.lookup maskRef).shape) :
    create_masked_stipple_heap heap stippleRef maskRef threshold =
      Except.ok
        (List.set (heap ++ [heap.lookup stippleRef]) (List.length heap)
          ⟨(heap.lookup stippleRef).height, (heap.lookup stippleRef).width,
            fun i j =>
              if (heap.lookup maskRef).data i j < threshold then 1
              else (heap.lookup stippleRef).data i j⟩,
         List.length heap) := by
  unfold create_masked_stipple_heap
  rw [if_neg (by simp [hsh])]

/-- Helper: the failure equation of the heap-level compositor. -/
theorem create_masked_stipple_heap_err (heap : Heap) (stippleRef maskRef : ℕ)
    (threshold : ℚ)
    (hsh : (heap.lookup stippleRef).shape ≠ (heap.lookup maskRef).shape) :
    create_masked_stipple_heap heap stippleRef maskRef threshold =
      Except.error "Input images must have the same shape." := by
  unfold create_masked_stipple_heap
  rw [if_pos hsh]

/-- C6: the compositor never mutates a pre-existing array: every buffer that
was on the heap before the call — in particular the stipple and mask
arguments — holds exactly the same value afterwards, for every input pair
and threshold; the only write goes to the freshly allocated copy. -/
theorem masked_compositor_pure (heap : Heap) (stippleRef maskRef : ℕ)
    (threshold : ℚ) (k : ℕ) (hk : k < List.length heap) :
    (heapAfterMask heap stippleRef maskRef threshold).lookup k
      = heap.lookup k := by
  by_cases hsh :
    (heap.lookup stippleRef).shape = (heap.lookup maskRef).shape
  · unfold heapAfterMask
    rw [create_masked_stipple_heap_ok heap stippleRef maskRef threshold hsh]
    unfold Heap.lookup
    rw [List.getD_eq_getElem?_getD, List.getD_eq_getElem?_getD,
      List.getElem?_set_ne (ne_of_gt hk), List.getElem?_append_left hk]
    exact (List.getD_eq_getElem?_getD heap k emptyBuffer).symm
  · unfold heapAfterMask
    rw [create_masked_stipple_heap_err heap stippleRef maskRef threshold hsh]

/-- C6 witness: a concrete two-buffer heap; buffer 0 (the stipple input) is
unchanged after the call. -/
theorem masked_compositor_pure_witness :
    (heapAfterMask [⟨1, 1, fun _ _ => 0⟩, ⟨1, 1, fun _ _ => 1⟩] 0 1
        (mkRat 1 2)).lookup 0
      = Heap.lookup [⟨1, 1, fun _ _ => 0⟩, ⟨1, 1, fun _ _ => 1⟩] 0 :=
  masked_compositor_pure [⟨1, 1, fun _ _ => 0⟩, ⟨1, 1, fun _ _ => 1⟩] 0 1
    (mkRat 1 2) 0 (by decide)

/-- C7: range invariant: every pixel the Glyph Mask Generator produces lies
in [0, 1] (an 8-bit value divided by 255), and the Masked Compositor's
output lies in [0, 1] whenever its stipple input does (each output pixel is
either 1.0 or an input pixel), with no clamping involved. -/
theorem pipeline_range_invariant (height width : ℕ) (letter : Char)
    (font_size_ratio : ℚ) (render : Char → ℤ → ℕ → ℕ → Fin 256)
    (stipple_img mask_img : NpImage) (threshold : ℚ)
    (hs : ∀ i j, 0 ≤ stipple_img.data i j ∧ stipple_img.data i j ≤ 1) :
    (∀ i j,
      0 ≤ (create_block_letter_s height width letter font_size_ratio
            render).data i j ∧
      (create_block_letter_s height width letter font_size_ratio
            render).data i j ≤ 1) ∧
    (∀ r, create_masked_stipple stipple_img mask_img threshold = Except.ok r →
      ∀ i j, 0 ≤ r.image.data i j ∧ r.image.data i j ≤ 1) := by
  constructor
  · intro i j
    show 0 ≤ ((render letter (font_size height width font_size_ratio) i j
        : ℕ) : ℚ) / 255 ∧
      ((render letter (font_size height width font_size_ratio) i j
        : ℕ) : ℚ) / 255 ≤ 1
    constructor
    · positivity
    · rw [div_le_one (by norm_num)]
      have hle : ((render letter (font_size height width font_size_ratio)
          i j : Fin 256) : ℕ) ≤ 255 :=
        Nat.lt_succ_iff.mp
          (render letter (font_size height width font_size_ratio) i j).isLt
      exact_mod_cast hle
  · intro r hr i j
    by_cases hsh : stipple_img.shape = mask_img.shape
    · rw [create_masked_stipple_ok stipple_img mask_img threshold hsh] at hr
      injection hr with hr
      subst hr
      show 0 ≤ (if mask_img.data i j < threshold then 1
          else stipple_img.data i j) ∧
        (if mask_img.data i j < threshold then 1
          else stipple_img.data i j) ≤ 1
      by_cases hmij : mask_img.data i j < threshold
      · rw [if_pos hmij]
        exact ⟨zero_le_one, le_refl 1⟩
      · rw [if_neg hmij]
        exact hs i j
    · rw [masked_compositor_shape_mismatch stipple_img mask_img threshold
        hsh] at hr
      exact absurd hr (by simp)

/-- C7 witness: a concrete render function and an in-range stipple. -/
theorem pipeline_range_invariant_witness :
    (∀ i j,
      0 ≤ (create_block_letter_s 4 4 'S' (mkRat 9 10)
            (fun _ _ _ _ => 0)).data i j ∧
      (create_block_letter_s 4 4 'S' (mkRat 9 10)
            (fun _ _ _ _ => 0)).data i j ≤ 1) ∧
    (∀ r, create_masked_stipple ⟨2, 2, fun _ _ => 1⟩ ⟨2, 2, fun _ _ => 0⟩
        (mkRat 1 2) = Except.ok r →
      ∀ i j, 0 ≤ r.image.data i j ∧ r.image.data i j ≤ 1) :=
  pipeline_range_invariant 4 4 'S' (mkRat 9 10) (fun _ _ _ _ => 0)
    ⟨2, 2, fun _ _ => 1⟩ ⟨2, 2, fun _ _ => 0⟩ (mkRat 1 2)
    (fun _ _ => ⟨zero_le_one, le_refl 1⟩)

/-- C8: the Panel Composer maps every panel through the shape-repair step
against the first image's shape and never raises: a mismatched image is
resized to the reference shape (its repaired shape is exactly (h, w)) and
the warning flag is set exactly for mismatched images, while a matching
image passes through unchanged with no warning. -/
theorem panel_composer_repairs_shapes (h w : ℕ)
    (resample : NpImage → ℕ → ℕ → ℕ → ℕ → ℚ) (img : NpImage)
    (original_img stipple_img block_letter_img masked_stipple_img
      : NpImage) :
    create_statistics_meme original_img stipple_img block_letter_img
        masked_stipple_img resample =
      List.map (repairImage original_img.height original_img.width resample)
        [original_img, stipple_img, block_letter_img,
          masked_stipple_img] ∧
    (repairImage h w resample img).1.shape = (h, w) ∧
    ((repairImage h w resample img).2 = true ↔ img.shape ≠ (h, w)) ∧
    (img.shape = (h, w) → repairImage h w resample img = (img, false)) := by
  refine ⟨rfl, ?_, ?_, ?_⟩
  · unfold repairImage
    by_cases hm : img.shape = (h, w)
    · rw [if_neg (by simp [hm])]
      exact hm
    · rw [if_pos hm]
      rfl
  · unfold repairImage
    by_cases hm : img.shape = (h, w)
    · rw [if_neg (by simp [hm])]
      simp [hm]
    · rw [if_pos hm]
      simp [hm]
  · intro hm
    unfold repairImage
    rw [if_neg (by simp [hm])]

/-- C8 witness: a 1-by-1 image checked against a 2-by-2 reference shape is
repaired with a warning rather than an error. -/
theorem panel_composer_repairs_shapes_witness :
    (repairImage 2 2 (fun _ _ _ _ _ => 0) ⟨1, 1, fun _ _ => 1⟩).2 = true ∧
    (repairImage 2 2 (fun _ _ _ _ _ => 0) ⟨1, 1, fun _ _ => 1⟩).1.shape
      = (2, 2) :=
  ⟨(panel_composer_repairs_shapes 2 2 (fun _ _ _ _ _ => 0)
      ⟨1, 1, fun _ _ => 1⟩ ⟨2, 2, fun _ _ => 1⟩ ⟨2, 2, fun _ _ => 1⟩
      ⟨2, 2, fun _ _ => 1⟩ ⟨2, 2, fun _ _ => 1⟩).2.2.1.mpr (by decide),
   (panel_composer_repairs_shapes 2 2 (fun _ _ _ _ _ => 0)
      ⟨1, 1, fun _ _ => 1⟩ ⟨2, 2, fun _ _ => 1⟩ ⟨2, 2, fun _ _ => 1⟩
      ⟨2, 2, fun _ _ => 1⟩ ⟨2, 2, fun _ _ => 1⟩).2.1⟩

/-- C9: the Stipple Sampler draws `round(percentage * height * width)`
sample positions without replacement (the returned sequence has that length
and no duplicates), and with sigma = 0 the returned image has exactly that
many non-white pixels. The randomness is abstracted as `order`, an
enumeration of all pixel indices in draw-preference order. -/
theorem stipple_sampler_counts (I : NpImage) (percentage : ℚ)
    (order : List (ℕ × ℕ))
    (hp0 : 0 < percentage) (hp1 : percentage ≤ 1)
    (hnd : order.Nodup)
    (hmem : ∀ p : ℕ × ℕ, p ∈ order ↔ p.1 < I.height ∧ p.2 < I.width) :
    (create_stipple I percentage order).2.length
        = numSamples percentage I.height I.width ∧
    (create_stipple I percentage order).2.Nodup ∧
    nonWhiteCount (create_stipple I percentage order).1
        = numSamples percentage I.height I.width := by
  have horder_fin : order.toFinset = pixelIndices I.height I.width := by
    ext p
    simp [List.mem_toFinset, hmem, pixelIndices, Finset.mem_product,
      Finset.mem_range]
  have hlen : order.length = I.height * I.width := by
    rw [← List.toFinset_card_of_nodup hnd, horder_fin]
    unfold pixelIndices
    rw [Finset.card_product]
    simp
  have hn_le : numSamples percentage I.height I.width
      ≤ I.height * I.width := by
    unfold numSamples
    have hb : (0:ℚ) ≤ (I.height : ℚ) * (I.width : ℚ) := by positivity
    have h1 : percentage * (I.height : ℚ) * (I.width : ℚ)
        ≤ ((I.height * I.width : ℕ) : ℚ) := by
      push_cast
      have h2 := mul_nonneg (sub_nonneg.mpr hp1) hb
      nlinarith
    have hmono : round (percentage * (I.height : ℚ) * (I.width : ℚ))
        ≤ round (((I.height * I.width : ℕ) : ℚ)) := by
      rw [round_eq, round_eq]
      exact Int.floor_le_floor (by linarith)
    rw [round_natCast] at hmono
    omega
  have hslen : (List.take (numSamples percentage I.height I.width)
      order).length = numSamples percentage I.height I.width := by
    rw [List.length_take, hlen]
    exact min_eq_left hn_le
  have hsnd : (List.take (numSamples percentage I.height I.width)
      order).Nodup :=
    List.Nodup.sublist (List.take_sublist _ order) hnd
  refine ⟨hslen, hsnd, ?_⟩
  show ((pixelIndices I.height I.width).filter
      (fun p => (if (p.1, p.2) ∈
          List.take (numSamples percentage I.height I.width) order
        then (0:ℚ) else 1) ≠ 1)).card
    = numSamples percentage I.height I.width
  have hcong : (pixelIndices I.height I.width).filter
      (fun p => (if (p.1, p.2) ∈
          List.take (numSamples percentage I.height I.width) order
        then (0:ℚ) else 1) ≠ 1)
      = (pixelIndices I.height I.width).filter
        (fun p => p ∈ List.take (numSamples percentage I.height I.width)
          order) := by
    apply Finset.filter_congr
    rintro ⟨a, b⟩ _
    by_cases hin : (a, b) ∈
        List.take (numSamples percentage I.height I.width) order
    · simp [hin]
    · simp [hin]
  rw [hcong]
  have htf : (pixelIndices I.height I.width).filter
      (fun p => p ∈ List.take (numSamples percentage I.height I.width) order)
      = (List.take (numSamples percentage I.height I.width)
          order).toFinset := by
    ext p
    simp only [Finset.mem_filter, List.mem_toFinset]
    constructor
    · exact fun hx => hx.2
    · intro hin
      refine ⟨?_, hin⟩
      have hmemo : p ∈ order :=
        (List.take_sublist _ order).subset hin
      have hbnd := (hmem p).mp hmemo
      simp [pixelIndices, Finset.mem_product, Finset.mem_range, hbnd.1,
        hbnd.2]
  rw [htf, List.toFinset_card_of_nodup hsnd, hslen]

/-- C9 witness: a 2-by-2 image sampled at percentage 1/2 yields
round(0.5 * 4) = 2 distinct samples and 2 non-white pixels. -/
theorem stipple_sampler_counts_witness :
    (create_stipple ⟨2, 2, fun _ _ => 1⟩ (mkRat 1 2)
        [(0, 0), (0, 1), (1, 0), (1, 1)]).2.length
      = numSamples (mkRat 1 2) 2 2 ∧
    (create_stipple ⟨2, 2, fun _ _ => 1⟩ (mkRat 1 2)
        [(0, 0), (0, 1), (1, 0), (1, 1)]).2.Nodup ∧
    nonWhiteCount (create_stipple ⟨2, 2, fun _ _ => 1⟩ (mkRat 1 2)
        [(0, 0), (0, 1), (1, 0), (1, 1)]).1
      = numSamples (mkRat 1 2) 2 2 :=
  stipple_sampler_counts ⟨2, 2, fun _ _ => 1⟩ (mkRat 1 2)
    [(0, 0), (0, 1), (1, 0), (1, 1)] (by decide) (by decide) (by decide)
    (by rintro ⟨a, b⟩; simp [Prod.ext_iff]; omega)
